import Mathlib

/-!
Shallow embedding of the du-recall pipeline (src/src/handlers/file_handlers.py,
src/src/handlers/rdf_storage.py, src/src/pipeline/flow.py).

Python records are dictionaries from field names to scalar values; we embed
them as association lists of `String × Value`, with `Value` covering the
Python scalars that flow through the pipeline (strings, ints, bools, floats
modelled as rationals, `None`, and the `NaN` placeholder that pandas inserts
for missing cells).  Floats are modelled as rationals: every arithmetic the
pipeline performs on them (score accumulation over small integers, division
and multiplication by 5) is exact at the magnitudes that occur.
-/

set_option autoImplicit false

namespace DuRecall

/-- A Python scalar value as it appears in a pipeline record. -/
inductive Value where
  | str (s : String)
  | int (n : Int)
  | float (q : ℚ)
  | bool (b : Bool)
  | none
  | nan
  deriving DecidableEq, Repr

/-- Python truthiness (`bool(v)`): empty string, zero, `False` and `None` are
falsy; note that `float('nan')` is truthy in Python. -/
def Value.truthy : Value → Bool
  | .str s => !s.isEmpty
  | .int n => n != 0
  | .float q => q != 0
  | .bool b => b
  | .none => false
  | .nan => true

/-- Python `v == s` against a string literal: only a string with the same
contents compares equal (ints, bools, `None` and `NaN` all compare unequal). -/
def Value.pyEqStr : Value → String → Bool
  | .str t, s => t == s
  | _, _ => false

/-- Python `str(v)`, as used to build entity URIs such as `Product_{id}`. -/
def Value.pyStr : Value → String
  | .str s => s
  | .int n => toString n
  | .float q => toString q
  | .bool b => if b then "True" else "False"
  | .none => "None"
  | .nan => "nan"

/-- A pipeline record: a Python dict embedded as an association list. -/
abbrev Record := List (String × Value)

/-- `ProcessedData = List[Dict[str, Any]]` (file_handlers.py line 7). -/
abbrev ProcessedData := List Record

namespace Record

/-- Python `record.get(k)` / `record[k]`: value at the first matching key. -/
def get : Record → String → Option Value
  | [], _ => Option.none
  | (k', v) :: rest, k => if k' = k then some v else get rest k

/-- Python `record.get(k, d)`. -/
def getD (r : Record) (k : String) (d : Value) : Value :=
  (r.get k).getD d

/-- Python `k in record`. -/
def hasKey (r : Record) (k : String) : Bool :=
  (r.get k).isSome

/-- Python `record[k] = v` on a dict: replace the value if the key is
present, otherwise append the new key at the end. -/
def dictSet : Record → String → Value → Record
  | [], k, v => [(k, v)]
  | (k', v') :: rest, k, v =>
      if k' = k then (k, v) :: rest else (k', v') :: dictSet rest k v

@[simp] theorem get_dictSet_self (r : Record) (k : String) (v : Value) :
    (r.dictSet k v).get k = some v := by
  induction r with
  | nil => simp [dictSet, get]
  | cons hd tl ih =>
      obtain ⟨k', v'⟩ := hd
      by_cases h : k' = k <;> simp [dictSet, get, h, ih]

@[simp] theorem get_dictSet_ne (r : Record) (k k' : String) (v : Value)
    (h : k' ≠ k) : (r.dictSet k v).get k' = r.get k' := by
  induction r with
  | nil => simp [dictSet, get, h, Ne.symm h]
  | cons hd tl ih =>
      obtain ⟨k₀, v₀⟩ := hd
      by_cases h₀ : k₀ = k
      · subst h₀
        simp [dictSet, get, Ne.symm h]
      · by_cases h₁ : k₀ = k' <;> simp [dictSet, get, h, h₀, h₁, ih]

@[simp] theorem hasKey_dictSet_self (r : Record) (k : String) (v : Value) :
    (r.dictSet k v).hasKey k = true := by
  simp [hasKey]

theorem hasKey_dictSet_of (r : Record) (k k' : String) (v : Value)
    (h : r.hasKey k' = true) : (r.dictSet k v).hasKey k' = true := by
  by_cases hk : k' = k
  · subst hk; simp
  · simpa [hasKey, get_dictSet_ne r k k' v hk] using h

theorem get_eq_none_of_not_hasKey (r : Record) (k : String)
    (h : r.hasKey k = false) : r.get k = Option.none := by
  unfold hasKey at h
  cases hg : r.get k with
  | none => rfl
  | some v => rw [hg] at h; simp at h

end Record

/-! ## FileHandler.validate (file_handlers.py lines 23-32)

```python
def validate(self, data: ProcessedData) -> bool:
    if not data:
        return False
    if not all('id' in record and 'raw_text' in record for record in data):
        return False
    return True
```
-/

def validate (data : ProcessedData) : Bool :=
  if data.isEmpty then false
  else if !(data.all fun record => record.hasKey "id" && record.hasKey "raw_text")
    then false
  else true

/-! ## GraphMapper: convert_to_rdf (rdf_storage.py lines 55-121)

RDF nodes are URI references or literals.  A plain `Literal(v)` is `Node.lit`;
a `Literal(v, datatype=XSD.float)` is `Node.litFloat`.  The rdflib `Graph` is
a set of triples; we embed it as a duplicate-free list built by `Graph.add`
(append if not already present), so that `list(g.triples((None, None, None)))`
is the list itself and set-equality is plain equality of duplicate-free lists.
-/

/-- An RDF node: URI reference, plain literal, or `xsd:float`-typed literal. -/
inductive Node where
  | uri (s : String)
  | lit (v : Value)
  | litFloat (v : Value)
  deriving DecidableEq, Repr

/-- `SCHEMA = Namespace("http://schema.org/")` (rdf_storage.py line 9). -/
def SCHEMA (s : String) : Node := .uri ("http://schema.org/" ++ s)

/-- `ANALYSIS_NS = Namespace("urn:analysis-reports/")` (rdf_storage.py line 11). -/
def ANALYSIS_NS (s : String) : Node := .uri ("urn:analysis-reports/" ++ s)

/-- `RDF.type` from rdflib. -/
def rdfType : Node := .uri "http://www.w3.org/1999/02/22-rdf-syntax-ns#type"

/-- An RDF triple (subject, predicate, object). -/
abbrev Triple := Node × Node × Node

namespace Graph

/-- `g.add(t)` on an rdflib `Graph`: a set insertion. -/
def add (g : List Triple) (t : Triple) : List Triple :=
  if t ∈ g then g else g ++ [t]

/-- A sequence of `g.add` calls, one per list element, in order. -/
def addAll (g : List Triple) (ts : List Triple) : List Triple :=
  ts.foldl add g

theorem mem_add_self (g : List Triple) (t : Triple) : t ∈ add g t := by
  unfold add
  split
  · assumption
  · simp

theorem mem_add_of (g : List Triple) (t t' : Triple) (h : t ∈ g) :
    t ∈ add g t' := by
  unfold add
  split
  · exact h
  · simp [h]

theorem mem_addAll_left (g : List Triple) (ts : List Triple) (t : Triple)
    (h : t ∈ g) : t ∈ addAll g ts := by
  induction ts generalizing g with
  | nil => simpa [addAll] using h
  | cons hd tl ih => exact ih (add g hd) (mem_add_of g t hd h)

theorem mem_addAll_right (g : List Triple) (ts : List Triple) (t : Triple)
    (h : t ∈ ts) : t ∈ addAll g ts := by
  induction ts generalizing g with
  | nil => simp at h
  | cons hd tl ih =>
      rcases List.mem_cons.mp h with h | h
      · subst h
        show t ∈ addAll (add g t) tl
        apply mem_addAll_left
        apply mem_add_self
      · exact ih (add g hd) h

@[simp] theorem addAll_nil (g : List Triple) : addAll g [] = g := rfl

@[simp] theorem addAll_cons (g : List Triple) (t : Triple) (ts : List Triple) :
    addAll g (t :: ts) = addAll (add g t) ts := rfl

end Graph

/-- Python `round(v, 1)` on the values the pipeline can feed it: ints and
bools stay integral, floats round to one decimal (ties to even), `NaN` stays
`NaN`.  (Python raises `TypeError` on non-numeric values; the pipeline only
ever passes floats here, and no claim touches that corner, so non-numeric
values are left unchanged.) -/
def pyRound1 (v : Value) : Value :=
  match v with
  | .int n => .int n
  | .bool b => .int (if b then 1 else 0)
  | .float q =>
      let f : ℤ := ⌊q * 10⌋
      let frac : ℚ := q * 10 - f
      let r : ℤ :=
        if frac < 1/2 then f
        else if frac > 1/2 then f + 1
        else if f % 2 = 0 then f else f + 1
      .float ((r : ℚ) / 10)
  | .nan => .nan
  | v => v

/-- The `g.add(...)` calls the body of the `for record in final_data:` loop
of `convert_to_rdf` (rdf_storage.py lines 66-118) performs for one record,
in source order.  A record whose `id` is absent or falsy (`if not record_id:
continue`) contributes nothing. -/
def recordTriples (record : Record) : List Triple :=
  let record_id := record.getD "id" Value.none
  if !record_id.truthy then []
  else
    let product_uri := ANALYSIS_NS ("Product_" ++ record_id.pyStr)
    [(product_uri, rdfType, SCHEMA "Product")]
    ++ (match record.get "raw_text" with
        | some v => [(product_uri, SCHEMA "description", Node.lit v)]
        | Option.none => [])
    ++ (match record.get "in_stock" with
        | some v =>
            if v.truthy then [(product_uri, SCHEMA "availability", SCHEMA "InStock")]
            else [(product_uri, SCHEMA "availability", SCHEMA "OutOfStock")]
        | Option.none => [])
    ++ (let classification := record.getD "llm_classification" Value.none
        if classification.truthy then
          let review_uri := ANALYSIS_NS ("Review_" ++ record_id.pyStr)
          [(product_uri, SCHEMA "category", Node.lit classification),
           (review_uri, rdfType, SCHEMA "Review"),
           (review_uri, SCHEMA "itemReviewed", product_uri),
           (review_uri, SCHEMA "reviewBody",
             Node.lit (Value.str ("LLM insight: " ++ classification.pyStr)))]
        else [])
    ++ (match record.get "inventory_velocity" with
        | some v =>
            if v = Value.none then []
            else [(product_uri, ANALYSIS_NS "inventoryVelocity", Node.litFloat v)]
        | Option.none => [])
    ++ (match record.get "priority_score" with
        | some v =>
            if v = Value.none then []
            else
              let rating_uri := ANALYSIS_NS ("Rating_" ++ record_id.pyStr)
              [(rating_uri, rdfType, SCHEMA "Rating"),
               (rating_uri, SCHEMA "ratingValue", Node.litFloat (pyRound1 v)),
               (rating_uri, SCHEMA "bestRating", Node.litFloat (Value.int 5)),
               (product_uri, SCHEMA "aggregateRating", rating_uri)]
        | Option.none => [])

/-- One iteration of the `for record in final_data:` loop: add the record's
triples to the graph built so far. -/
def addRecordTriples (g : List Triple) (record : Record) : List Triple :=
  Graph.addAll g (recordTriples record)

/-- `convert_to_rdf` (rdf_storage.py lines 55-121): fold the per-record loop
body over the batch, starting from the empty graph, and return the graph's
triples as a list. -/
def convert_to_rdf (final_data : List Record) : List Triple :=
  final_data.foldl addRecordTriples []

theorem recordTriples_eq_nil_of_not_truthy (record : Record)
    (h : (record.getD "id" Value.none).truthy = false) :
    recordTriples record = [] := by
  unfold recordTriples
  simp [h]

theorem addRecordTriples_mem (g : List Triple) (record : Record) (t : Triple)
    (h : t ∈ g ∨ t ∈ recordTriples record) : t ∈ addRecordTriples g record := by
  rcases h with h | h
  · exact Graph.mem_addAll_left g _ t h
  · exact Graph.mem_addAll_right g _ t h

theorem mem_foldl_addRecordTriples (l : List Record) (g : List Triple)
    (t : Triple) (h : t ∈ g) : t ∈ l.foldl addRecordTriples g := by
  induction l generalizing g with
  | nil => simpa using h
  | cons hd tl ih =>
      exact ih (addRecordTriples g hd) (addRecordTriples_mem g hd t (Or.inl h))

theorem mem_convert_to_rdf_of_mem_recordTriples (data : List Record)
    (r : Record) (hr : r ∈ data) (t : Triple) (ht : t ∈ recordTriples r) :
    t ∈ convert_to_rdf data := by
  unfold convert_to_rdf
  generalize ([] : List Triple) = g
  induction data generalizing g with
  | nil => simp at hr
  | cons hd tl ih =>
      rcases List.mem_cons.mp hr with h | h
      · subst h
        exact mem_foldl_addRecordTriples tl (addRecordTriples g r) t
          (addRecordTriples_mem g r t (Or.inr ht))
      · exact ih h (addRecordTriples g hd)

theorem foldl_addRecordTriples_filter (l : List Record) (g : List Triple) :
    l.foldl addRecordTriples g =
      (l.filter fun r => (r.getD "id" Value.none).truthy).foldl
        addRecordTriples g := by
  induction l generalizing g with
  | nil => rfl
  | cons hd tl ih =>
      by_cases h : (hd.getD "id" Value.none).truthy
      · simp only [List.foldl_cons, List.filter_cons, h]
        exact ih (addRecordTriples g hd)
      · have h0 : (hd.getD "id" Value.none).truthy = false := by
          simpa using h
        have : addRecordTriples g hd = g := by
          simp [addRecordTriples, recordTriples_eq_nil_of_not_truthy hd h0]
        simp only [List.foldl_cons, List.filter_cons, h0, this]
        exact ih g

/-! ## Prefect task retry semantics (flow.py decorators)

A Prefect `@task(retries=n, retry_delay_seconds=[...])` runs its body once
and, on an exception, retries it up to `n` more times, waiting the listed
delay before each retry; the task fails with the last exception once the
budget is exhausted.  A task without a `retries` argument (such as
`store_results_to_rocksdb` and the stage tasks, flow.py lines 85, 125, 181)
has Prefect's default of zero retries.  We model a task body as a function
from the attempt number to an `Except` result (so transient failures are
expressible) and record the trace of a run: how many attempts were made,
which delays were waited, and the final result. -/

/-- The observable trace of one Prefect task run. -/
structure RunTrace (α : Type) where
  attempts : ℕ
  delaysUsed : List ℕ
  result : Except String α
  deriving Repr

/-- The retry-relevant configuration of a `@task` decorator. -/
structure TaskConfig where
  retries : ℕ
  retry_delay_seconds : List ℕ
  deriving Repr

/-- `@task(retries=3, retry_delay_seconds=[5, 10, 30])` (flow.py line 68). -/
def ingestTaskConfig : TaskConfig := ⟨3, [5, 10, 30]⟩

/-- `@task(log_prints=True)` (flow.py line 181): no retries configured, so
Prefect's default of zero retries applies. -/
def storeTaskConfig : TaskConfig := ⟨0, []⟩

/-- Run a task body with a remaining-retry budget and pending delay list:
attempt the body, and on failure either stop (budget exhausted) or wait the
next delay and recurse. -/
def retryLoop {α : Type} (body : ℕ → Except String α) :
    ℕ → ℕ → List ℕ → RunTrace α
  | attempt, 0, _ =>
      match body attempt with
      | .ok a => ⟨1, [], .ok a⟩
      | .error e => ⟨1, [], .error e⟩
  | attempt, r + 1, delays =>
      match body attempt with
      | .ok a => ⟨1, [], .ok a⟩
      | .error _ =>
          match delays with
          | [] =>
              let t := retryLoop body (attempt + 1) r []
              ⟨t.attempts + 1, t.delaysUsed, t.result⟩
          | d :: ds =>
              let t := retryLoop body (attempt + 1) r ds
              ⟨t.attempts + 1, d :: t.delaysUsed, t.result⟩

/-- Run a task body under a `@task` decorator's retry configuration. -/
def runTask {α : Type} (cfg : TaskConfig) (body : ℕ → Except String α) :
    RunTrace α :=
  retryLoop body 0 cfg.retries cfg.retry_delay_seconds

/-- A body that fails identically on every attempt is attempted
`retries + 1` times, consuming the whole delay list. -/
theorem retryLoop_const_error {α : Type} (body : ℕ → Except String α)
    (e : String) (h : ∀ n, body n = .error e) (a r : ℕ) (ds : List ℕ) :
    retryLoop body a r ds = ⟨r + 1, ds.take r, .error e⟩ := by
  induction r generalizing a ds with
  | zero => simp [retryLoop, h a]
  | succ r ih =>
      cases ds with
      | nil => simp [retryLoop, h a, ih (a + 1) []]
      | cons d ds => simp [retryLoop, h a, ih (a + 1) ds]

/-- A body that succeeds on its first attempt yields exactly one attempt and
no delays, under any configuration. -/
theorem retryLoop_first_ok {α : Type} (body : ℕ → Except String α) (a₀ : α)
    (h : body 0 = .ok a₀) (r : ℕ) (ds : List ℕ) :
    retryLoop body 0 r ds = ⟨1, [], .ok a₀⟩ := by
  cases r with
  | zero => simp [retryLoop, h]
  | succ r => cases ds with
      | nil => simp [retryLoop, h]
      | cons d ds => simp [retryLoop, h]

/-! ## ingest_and_validate (flow.py lines 68-82)

```python
@task(retries=3, retry_delay_seconds=[5, 10, 30])
def ingest_and_validate(source_identifier: str) -> ProcessedData:
    handler = get_handler(source_identifier)
    data = handler.parse()
    if not data or not handler.validate(data):
        raise ValueError("Ingestion failed: Data is empty or invalid after parsing.")
    return data
```

`handler.parse()` is file/network I/O; we model the parse outcome as the
task's input (the handlers themselves swallow read errors and return an
empty list, file_handlers.py lines 55-57).  The body is deterministic given
that outcome. -/

def ingestBody (parseResult : ProcessedData) : ℕ → Except String ProcessedData :=
  fun _ =>
    if parseResult.isEmpty || !validate parseResult then
      .error "Ingestion failed: Data is empty or invalid after parsing."
    else .ok parseResult

def ingest_and_validate (parseResult : ProcessedData) : RunTrace ProcessedData :=
  runTask ingestTaskConfig (ingestBody parseResult)

/-! ## store_results_to_rocksdb (flow.py lines 181-195)

```python
@task(log_prints=True)
def store_results_to_rocksdb(final_data: ProcessedData) -> str:
    triples = convert_to_rdf(final_data)
    store_result = store_rdf_triples(triples)
    return store_result
```

The sink write (`store_rdf_triples`) is external I/O; we model it as a
capability that may fail per attempt. -/

def store_results_to_rocksdb
    (sink : List Triple → ℕ → Except String String)
    (final_data : ProcessedData) : RunTrace String :=
  runTask storeTaskConfig (fun attempt => sink (convert_to_rdf final_data) attempt)

/-! ## run_llm_classification (flow.py lines 86-122)

The stage converts each record to a mock Haystack document
(`content = record.get("raw_text", "")`, metadata = the record minus
`raw_text`), short-circuits when there are no documents, runs the mock
classifier (label from `len(doc.content)`), and merges the results back as
`{"raw_text": content, **meta}` with `llm_classification` added to the
metadata.  `len` on a non-string content raises `TypeError`, hence the
`Except` result. -/

/-- Python `len(v)`: defined for strings, `TypeError` otherwise. -/
def Value.pyLen : Value → Except String ℕ
  | .str s => .ok s.length
  | _ => .error "TypeError: object has no len()"

/-- The label logic of `MockHaystackClassifier.run` (flow.py lines 27-33). -/
def classificationLabel (content_len : ℕ) : String :=
  if content_len > 100 then "LongReport"
  else if content_len > 40 then "DetailedSpec"
  else "ProductReview"

/-- One document through the mock classifier: compute the label from the
content length and add it to the metadata (flow.py lines 24-41). -/
def classifyDoc (doc : Value × Record) : Except String (Value × Record) := do
  let n ← doc.1.pyLen
  pure (doc.1, doc.2.dictSet "llm_classification" (Value.str (classificationLabel n)))

def run_llm_classification (raw_data : ProcessedData) :
    Except String ProcessedData := do
  let haystack_docs := raw_data.map fun record =>
    (record.getD "raw_text" (Value.str ""),
     record.filter fun kv => kv.1 != "raw_text")
  if haystack_docs.isEmpty then
    return raw_data
  else
    let results ← haystack_docs.mapM classifyDoc
    return results.map fun doc => ("raw_text", doc.1) :: doc.2

/-! ## run_dask_analysis (flow.py lines 126-178)

The stage loads the batch into a pandas DataFrame (`pd.DataFrame(data)`:
columns are the union of the records' keys in order of first appearance,
missing cells become `NaN`), assigns an `inventory_velocity` column drawing
one `np.random.rand()` sample per row, assigns a `priority_score` column via
`calculate_priority`, and converts back with `df.to_dict('records')` (every
output record carries every column).  The RNG is modelled as an explicit
stream `rng : ℕ → ℚ` of samples, consumed row by row; a fresh invocation of
the task corresponds to a fresh stream.  The closing
`print(f"... {list(final_data[0].keys())}")` (flow.py line 177) indexes the
first record unconditionally, which raises `IndexError` on an empty batch. -/

/-- The DataFrame's column list: union of record keys, first appearance
order (`pd.DataFrame(data).columns`). -/
def columnsOf (data : ProcessedData) : List String :=
  data.foldl (fun acc r => acc ++ ((r.map Prod.fst).filter fun k => !acc.contains k)) []

/-- One DataFrame row: every column, with `NaN` for cells the record
lacks. -/
def toRow (cols : List String) (r : Record) : Record :=
  cols.map fun k => (k, (r.get k).getD Value.nan)

/-- The `inventory_velocity` lambda (flow.py lines 140-146), with the row's
`np.random.rand()` sample passed explicitly:
`rand*4.0 + 1.0` if `row.get('in_stock', False)` is truthy and
`row.get('llm_classification') == 'DetailedSpec'`, else `rand*1.5`. -/
def inventoryVelocity (rand : ℚ) (row : Record) : ℚ :=
  if (row.getD "in_stock" (Value.bool false)).truthy
      && (row.getD "llm_classification" Value.none).pyEqStr "DetailedSpec"
  then rand * 4 + 1
  else rand * 1.5

/-- The score accumulated by `calculate_priority` (flow.py lines 149-166)
before the final clamp: +4 for `DetailedSpec` / +2 for `ProductReview`,
then +1 for an in-stock review or an out-of-stock detailed spec. -/
def calcScore (row : Record) : ℚ :=
  let classification := row.getD "llm_classification" (Value.str "")
  let in_stock := row.getD "in_stock" (Value.bool false)
  let score : ℚ :=
    if classification.pyEqStr "DetailedSpec" then 4
    else if classification.pyEqStr "ProductReview" then 2
    else 0
  if in_stock.truthy && classification.pyEqStr "ProductReview" then score + 1
  else if !in_stock.truthy && classification.pyEqStr "DetailedSpec" then score + 1
  else score

/-- `calculate_priority` (flow.py lines 149-168), including the final
`return min(score / 5.0 * 5.0, 5.0)`. -/
def calculate_priority (row : Record) : ℚ :=
  min (calcScore row / 5 * 5) 5

/-- `df['inventory_velocity'] = df.apply(...)` for one row. -/
def addVelocity (rand : ℚ) (row : Record) : Record :=
  row.dictSet "inventory_velocity" (Value.float (inventoryVelocity rand row))

/-- The first `df.apply(..., axis=1)` pass: one RNG sample per row, in row
order. -/
def addVelocities (rng : ℕ → ℚ) : ℕ → List Record → List Record
  | _, [] => []
  | i, row :: rest => addVelocity (rng i) row :: addVelocities rng (i + 1) rest

/-- `df['priority_score'] = df.apply(calculate_priority, axis=1)` for one
row. -/
def addPriority (row : Record) : Record :=
  row.dictSet "priority_score" (Value.float (calculate_priority row))

def run_dask_analysis (rng : ℕ → ℚ) (data : ProcessedData) :
    Except String ProcessedData :=
  let cols := columnsOf data
  let rows := data.map (toRow cols)
  let rows2 := addVelocities rng 0 rows
  let final_data := rows2.map addPriority
  if final_data.isEmpty then .error "IndexError: list index out of range"
  else .ok final_data

/-! ## Helper characterizations -/

theorem validate_eq_formula (data : ProcessedData) :
    validate data =
      (!data.isEmpty &&
        data.all fun r => r.hasKey "id" && r.hasKey "raw_text") := by
  unfold validate
  split_ifs with h1 h2 <;> simp_all

/-! ## Claim theorems -/

/-- C6: `validate` returns false on an empty batch; on a non-empty batch it
returns false when some record lacks `id` or `raw_text`, and true when every
record has both keys present (which in particular covers records whose
values are present and non-empty). -/
theorem validate_complete (data : ProcessedData) :
    (data = [] → validate data = false) ∧
    (data ≠ [] →
      ((∃ r ∈ data, r.hasKey "id" = false ∨ r.hasKey "raw_text" = false) →
        validate data = false) ∧
      ((∀ r ∈ data, r.hasKey "id" = true ∧ r.hasKey "raw_text" = true) →
        validate data = true)) := by
  refine ⟨fun h => by subst h; rfl, fun hne => ⟨fun h => ?_, fun h => ?_⟩⟩
  · obtain ⟨r, hr, hbad⟩ := h
    rw [validate_eq_formula]
    have hall : (data.all fun r => r.hasKey "id" && r.hasKey "raw_text") = false := by
      rw [List.all_eq_false]
      exact ⟨r, hr, by rcases hbad with hb | hb <;> simp [hb]⟩
    simp [hall]
  · rw [validate_eq_formula]
    have hall : (data.all fun r => r.hasKey "id" && r.hasKey "raw_text") = true := by
      rw [List.all_eq_true]
      intro r hr
      obtain ⟨h1, h2⟩ := h r hr
      simp [h1, h2]
    have hne2 : data.isEmpty = false := by
      cases data
      · exact absurd rfl hne
      · rfl
    simp [hall, hne2]

/-- Witness for C6: the three cases of `validate_complete` at concrete
batches. -/
theorem validate_complete_witness :
    validate [] = false ∧
    validate [[("id", Value.int 1)]] = false ∧
    validate [[("id", Value.int 1), ("raw_text", Value.str "t")]] = true := by
  refine ⟨(validate_complete []).1 rfl, ?_, ?_⟩
  · exact ((validate_complete [[("id", Value.int 1)]]).2 (by simp)).1
      ⟨[("id", Value.int 1)], by simp, Or.inr (by decide)⟩
  · exact ((validate_complete [[("id", Value.int 1), ("raw_text", Value.str "t")]]).2
      (by simp)).2 (by decide)

/-- C9: `validate` inspects only key presence.  Any non-empty batch whose
records all carry the keys `id` and `raw_text` passes validation, whatever
the stored values are — in particular an empty-string `raw_text` or a `None`
`id` (see the witness), so the spec's "raw_text non-empty" invariant is not
enforced here. -/
theorem validate_presence_only (data : ProcessedData) (hne : data ≠ [])
    (h : ∀ r ∈ data, r.hasKey "id" = true ∧ r.hasKey "raw_text" = true) :
    validate data = true := by
  rw [validate_eq_formula]
  have hall : (data.all fun r => r.hasKey "id" && r.hasKey "raw_text") = true := by
    rw [List.all_eq_true]
    intro r hr
    obtain ⟨h1, h2⟩ := h r hr
    simp [h1, h2]
  have hne2 : data.isEmpty = false := by
    cases data
    · exact absurd rfl hne
    · rfl
  simp [hall, hne2]

/-- Witness for C9: a record with `id = None` and `raw_text = ""` still
validates. -/
theorem validate_presence_only_witness :
    validate [[("id", Value.none), ("raw_text", Value.str "")]] = true :=
  validate_presence_only [[("id", Value.none), ("raw_text", Value.str "")]]
    (by simp) (by decide)

/-- Counterexample to C5 as stated: the record `{"id": 0}` has the field
`id`, yet `convert_to_rdf` emits no triples for it at all (the source guard
is `if not record_id: continue`, which also skips falsy ids such as `0`). -/
theorem c5_id_zero_counterexample :
    Record.hasKey [("id", Value.int 0)] "id" = true ∧
    convert_to_rdf [[("id", Value.int 0)]] = [] := by decide

theorem type_triple_mem_recordTriples (r : Record) (v : Value)
    (hv : r.get "id" = some v) (ht : v.truthy = true) :
    (ANALYSIS_NS ("Product_" ++ v.pyStr), rdfType, SCHEMA "Product")
      ∈ recordTriples r := by
  unfold recordTriples
  have hid : r.getD "id" Value.none = v := by simp [Record.getD, hv]
  rw [hid]
  simp [ht]

/-- C5 (amended): the triple `(Product_{id}, rdf:type, schema:Product)` is
emitted for every Record whose `id` field is present and truthy, and Records
whose `id` is absent or falsy (0, "", None, False) contribute no triples at
all: the mapped graph of a batch equals that of the batch restricted to
truthy-id records. -/
theorem product_type_triple_of_truthy_id (data : ProcessedData) :
    (∀ r ∈ data, ∀ v : Value, r.get "id" = some v → v.truthy = true →
      (ANALYSIS_NS ("Product_" ++ v.pyStr), rdfType, SCHEMA "Product")
        ∈ convert_to_rdf data) ∧
    convert_to_rdf data =
      convert_to_rdf (data.filter fun r => (r.getD "id" Value.none).truthy) := by
  constructor
  · intro r hr v hv ht
    exact mem_convert_to_rdf_of_mem_recordTriples data r hr _
      (type_triple_mem_recordTriples r v hv ht)
  · exact foldl_addRecordTriples_filter data []

/-- Witness for C5 (amended): the record `{"id": 7}` (truthy id) yields its
type triple, and filtering a batch to truthy ids does not change the
graph. -/
theorem product_type_triple_of_truthy_id_witness :
    (ANALYSIS_NS ("Product_" ++ (Value.int 7).pyStr), rdfType, SCHEMA "Product")
      ∈ convert_to_rdf [[("id", Value.int 7)]] ∧
    convert_to_rdf [[("id", Value.int 7)], [("id", Value.int 0)]] =
      convert_to_rdf ([[("id", Value.int 7)], [("id", Value.int 0)]].filter
        fun r => (r.getD "id" Value.none).truthy) :=
  ⟨(product_type_triple_of_truthy_id [[("id", Value.int 7)]]).1
      [("id", Value.int 7)] (by simp) (Value.int 7) (by decide) (by decide),
   (product_type_triple_of_truthy_id [[("id", Value.int 7)], [("id", Value.int 0)]]).2⟩

/-- C7: `convert_to_rdf` is a pure, deterministic function of the batch: the
embedding carries no hidden state (the source touches no randomness, no
blank nodes, no ambient mutability), so equal batches map to equal triple
sets. -/
theorem graphmapper_deterministic (b₁ b₂ : ProcessedData) (h : b₁ = b₂) :
    convert_to_rdf b₁ = convert_to_rdf b₂ := by rw [h]

/-- Witness for C7: two invocations on the same concrete batch agree. -/
theorem graphmapper_deterministic_witness :
    convert_to_rdf [[("id", Value.int 101), ("in_stock", Value.bool true)]] =
      convert_to_rdf [[("id", Value.int 101), ("in_stock", Value.bool true)]] :=
  graphmapper_deterministic _ _ rfl

/-- Counterexample to C3 as stated: a parse that produced zero records (the
claim's `SourceEmpty`, a deterministic failure) is nonetheless retried — the
task makes 4 attempts with backoff delays 5s, 10s, 30s instead of failing
immediately with no retry. -/
theorem c3_empty_source_is_retried_counterexample :
    (ingest_and_validate []).attempts = 4 ∧
    (ingest_and_validate []).delaysUsed = [5, 10, 30] ∧
    (ingest_and_validate []).result =
      Except.error "Ingestion failed: Data is empty or invalid after parsing." :=
  ⟨rfl, rfl, rfl⟩

/-- C3 (amended): the Ingesting task does not distinguish error kinds: every
failing parse outcome — empty data or invalid data alike (I/O failures are
swallowed by the handlers into an empty parse as well) — raises the same
`ValueError` and is retried up to 3 times with backoff delays 5s, 10s, 30s
before the run fails. -/
theorem ingest_uniform_retry (parseResult : ProcessedData)
    (h : (parseResult.isEmpty || !validate parseResult) = true) :
    ingest_and_validate parseResult =
      ⟨4, [5, 10, 30],
        Except.error "Ingestion failed: Data is empty or invalid after parsing."⟩ := by
  unfold ingest_and_validate runTask ingestTaskConfig
  rw [retryLoop_const_error (ingestBody parseResult)
    "Ingestion failed: Data is empty or invalid after parsing."
    (fun n => by simp [ingestBody, h]) 0 3 [5, 10, 30]]
  rfl

/-- Witness for C3 (amended): the empty parse result is retried to
exhaustion. -/
theorem ingest_uniform_retry_witness :
    ingest_and_validate [] =
      ⟨4, [5, 10, 30],
        Except.error "Ingestion failed: Data is empty or invalid after parsing."⟩ :=
  ingest_uniform_retry [] rfl

/-- A sink that fails on the first write attempt and would succeed on the
second. -/
def flakySink : List Triple → ℕ → Except String String :=
  fun _ attempt => if attempt = 0 then .error "SinkWriteFailed" else .ok "stored"

/-- Counterexample to C4 as stated: with a sink whose first write raises and
whose second write would succeed, the Persisting task makes exactly one
attempt and reports failure — the write is never attempted again
(`store_results_to_rocksdb` carries no `retries` configuration). -/
theorem c4_no_second_attempt_counterexample :
    (store_results_to_rocksdb flakySink [[("id", Value.int 1)]]).attempts = 1 ∧
    (store_results_to_rocksdb flakySink [[("id", Value.int 1)]]).result =
      Except.error "SinkWriteFailed" ∧
    flakySink (convert_to_rdf [[("id", Value.int 1)]]) 1 = Except.ok "stored" :=
  ⟨rfl, rfl, rfl⟩

/-- C4 (amended): the Persisting task has no retry: whenever the first sink
write raises, the run fails after that single attempt, with no delay and no
further write. -/
theorem store_no_retry (sink : List Triple → ℕ → Except String String)
    (final_data : ProcessedData) (e : String)
    (h : sink (convert_to_rdf final_data) 0 = Except.error e) :
    store_results_to_rocksdb sink final_data = ⟨1, [], Except.error e⟩ := by
  unfold store_results_to_rocksdb runTask storeTaskConfig
  simp [retryLoop, h]

/-- Witness for C4 (amended): the flaky sink's first failure ends the run. -/
theorem store_no_retry_witness :
    store_results_to_rocksdb flakySink [[("id", Value.int 1)]] =
      ⟨1, [], Except.error "SinkWriteFailed"⟩ :=
  store_no_retry flakySink [[("id", Value.int 1)]] "SinkWriteFailed" rfl

/-- C8: for every row — any `llm_classification` and `in_stock` values,
fields missing or not — `calculate_priority` lies in [0, 5], and the final
`min(score / 5.0 * 5.0, 5.0)` clamp is the identity: the returned value
equals the accumulated score (which is at most 5 by construction).  The
arithmetic is exact in ℚ, and also exact in IEEE doubles at these
magnitudes. -/
theorem priority_score_bounds (row : Record) :
    0 ≤ calculate_priority row ∧ calculate_priority row ≤ 5 ∧
    calculate_priority row = calcScore row := by
  unfold calculate_priority calcScore
  dsimp only
  split_ifs <;> norm_num [min_def]

/-- C1 (behavior at the failing input): on an empty batch the Classifying
stage returns the empty batch as the spec demands, but the Scoring stage
raises instead of returning an empty list — `run_dask_analysis` ends with
`print(... list(final_data[0].keys()))` (flow.py line 177), which is an
`IndexError` when `final_data` is empty. -/
theorem empty_batch_stage_behavior :
    run_llm_classification [] = Except.ok [] ∧
    ∀ rng : ℕ → ℚ, run_dask_analysis rng [] =
      Except.error "IndexError: list index out of range" :=
  ⟨rfl, fun _ => rfl⟩

/-! ## Scoring-stage structure lemmas -/

@[simp] theorem addVelocities_length (rng : ℕ → ℚ) (i : ℕ) (rows : List Record) :
    (addVelocities rng i rows).length = rows.length := by
  induction rows generalizing i with
  | nil => rfl
  | cons hd tl ih => simp [addVelocities, ih]

/-- On a non-empty batch, the Scoring task returns the transformed rows. -/
theorem run_dask_analysis_eq (rng : ℕ → ℚ) (data : ProcessedData)
    (hne : data ≠ []) :
    run_dask_analysis rng data =
      Except.ok ((addVelocities rng 0 (data.map (toRow (columnsOf data)))).map
        addPriority) := by
  unfold run_dask_analysis
  rw [if_neg]
  intro hemp
  apply hne
  have hlen : ((addVelocities rng 0 (data.map (toRow (columnsOf data)))).map
      addPriority).length = data.length := by
    simp
  rw [List.isEmpty_iff] at hemp
  rw [hemp] at hlen
  exact List.length_eq_zero.mp hlen.symm

/-- Drop the randomized `inventory_velocity` field from a record. -/
def eraseVelocity (r : Record) : Record :=
  r.filter fun kv => kv.1 != "inventory_velocity"

theorem eraseVelocity_dictSet_velocity (r : Record) (v : Value) :
    eraseVelocity (r.dictSet "inventory_velocity" v) = eraseVelocity r := by
  induction r with
  | nil => simp [eraseVelocity, Record.dictSet]
  | cons hd tl ih =>
      obtain ⟨k, w⟩ := hd
      by_cases hk : k = "inventory_velocity"
      · subst hk
        simp [eraseVelocity, Record.dictSet]
      · have ih2 := ih
        simp only [eraseVelocity] at ih2
        simp [eraseVelocity, Record.dictSet, hk, ih2]

theorem eraseVelocity_dictSet_ne (r : Record) (k : String) (v : Value)
    (hk : k ≠ "inventory_velocity") :
    eraseVelocity (r.dictSet k v) = (eraseVelocity r).dictSet k v := by
  induction r with
  | nil => simp [eraseVelocity, Record.dictSet, hk]
  | cons hd tl ih =>
      obtain ⟨k₀, w⟩ := hd
      by_cases h₀ : k₀ = k
      · subst h₀
        simp [eraseVelocity, Record.dictSet, hk]
      · have ih2 := ih
        simp only [eraseVelocity] at ih2
        by_cases hv : k₀ = "inventory_velocity"
        · subst hv
          simp [eraseVelocity, Record.dictSet, h₀, ih2]
        · simp [eraseVelocity, Record.dictSet, h₀, hv, ih2]

theorem calcScore_dictSet_velocity (r : Record) (v : Value) :
    calcScore (r.dictSet "inventory_velocity" v) = calcScore r := by
  unfold calcScore
  rw [Record.getD, Record.getD, Record.getD, Record.getD,
    Record.get_dictSet_ne r "inventory_velocity" "llm_classification" v (by decide),
    Record.get_dictSet_ne r "inventory_velocity" "in_stock" v (by decide)]

theorem calculate_priority_dictSet_velocity (r : Record) (v : Value) :
    calculate_priority (r.dictSet "inventory_velocity" v) = calculate_priority r := by
  unfold calculate_priority
  rw [calcScore_dictSet_velocity]

theorem eraseVelocity_addPriority_addVelocity (a : ℚ) (row : Record) :
    eraseVelocity (addPriority (addVelocity a row)) =
      (eraseVelocity row).dictSet "priority_score"
        (Value.float (calculate_priority row)) := by
  unfold addPriority addVelocity
  rw [calculate_priority_dictSet_velocity,
    eraseVelocity_dictSet_ne _ "priority_score" _ (by decide),
    eraseVelocity_dictSet_velocity]

theorem map_erase_addVelocities (rng₁ rng₂ : ℕ → ℚ) (i : ℕ)
    (rows : List Record) :
    (addVelocities rng₁ i rows).map (eraseVelocity ∘ addPriority) =
    (addVelocities rng₂ i rows).map (eraseVelocity ∘ addPriority) := by
  induction rows generalizing i with
  | nil => rfl
  | cons hd tl ih =>
      simp only [addVelocities, List.map_cons, Function.comp]
      rw [eraseVelocity_addPriority_addVelocity,
        eraseVelocity_addPriority_addVelocity]
      have := ih (i + 1)
      simp only [Function.comp] at this
      rw [this]

/-- Counterexample to C2 as stated: on the singleton batch `[{"id": 1}]`,
two invocations of the Scoring stage whose RNG streams differ (as two draws
from `np.random` do) produce different outputs — the `inventory_velocity`
values disagree. -/
theorem c2_rng_dependent_counterexample :
    run_dask_analysis (fun _ => 0) [[("id", Value.int 1)]] ≠
      run_dask_analysis (fun _ => (1 : ℚ)/2) [[("id", Value.int 1)]] := by
  intro h
  simp [run_dask_analysis, columnsOf, toRow, addVelocities, addVelocity, addPriority,
    inventoryVelocity, Record.dictSet, Record.getD, Record.get, Value.truthy,
    Value.pyEqStr] at h
  norm_num at h

/-- C2 (amended): the Scoring stage is deterministic in everything except
`inventory_velocity`, which is drawn from the RNG: for any two RNG streams,
the two outputs agree record-by-record once the `inventory_velocity` field
is erased — in particular the `priority_score` values are equal — while the
`inventory_velocity` values themselves can differ (see the
counterexample). -/
theorem scoring_deterministic_up_to_velocity (rng₁ rng₂ : ℕ → ℚ)
    (data : ProcessedData) :
    (run_dask_analysis rng₁ data).map (List.map eraseVelocity) =
    (run_dask_analysis rng₂ data).map (List.map eraseVelocity) := by
  cases hd : data with
  | nil => rfl
  | cons r rest =>
      rw [← hd]
      have hne : data ≠ [] := by rw [hd]; simp
      rw [run_dask_analysis_eq rng₁ data hne, run_dask_analysis_eq rng₂ data hne]
      show Except.ok _ = Except.ok _
      rw [List.map_map, List.map_map]
      exact congrArg Except.ok (map_erase_addVelocities rng₁ rng₂ 0 _)

/-! ## DataFrame round-trip lemmas (for C10) -/

theorem mem_keys_of_hasKey (r : Record) (k : String) (h : r.hasKey k = true) :
    k ∈ r.map Prod.fst := by
  induction r with
  | nil => simp [Record.hasKey, Record.get] at h
  | cons hd tl ih =>
      obtain ⟨k₀, v⟩ := hd
      by_cases hk : k₀ = k
      · simp [hk]
      · have h2 : Record.hasKey tl k = true := by
          simpa [Record.hasKey, Record.get, hk] using h
        simp only [List.map_cons, List.mem_cons]
        exact Or.inr (ih h2)

theorem mem_columnsOf_aux (l : ProcessedData) (acc : List String) (k : String)
    (h : k ∈ acc ∨ ∃ r ∈ l, r.hasKey k = true) :
    k ∈ l.foldl
      (fun acc r => acc ++ ((r.map Prod.fst).filter fun c => !acc.contains c))
      acc := by
  induction l generalizing acc with
  | nil =>
      rcases h with h | ⟨r, hr, _⟩
      · simpa using h
      · simp at hr
  | cons hd tl ih =>
      simp only [List.foldl_cons]
      apply ih
      rcases h with h | ⟨r, hr, hkey⟩
      · exact Or.inl (List.mem_append_left _ h)
      · rcases List.mem_cons.mp hr with rfl | hr2
        · by_cases hacc : k ∈ acc
          · exact Or.inl (List.mem_append_left _ hacc)
          · refine Or.inl (List.mem_append_right _ ?_)
            refine List.mem_filter.mpr ⟨mem_keys_of_hasKey _ _ hkey, ?_⟩
            simpa using hacc
        · exact Or.inr ⟨r, hr2, hkey⟩

theorem mem_columnsOf (data : ProcessedData) (k : String)
    (h : ∃ r ∈ data, r.hasKey k = true) : k ∈ columnsOf data :=
  mem_columnsOf_aux data [] k (Or.inr h)

theorem toRow_get_mem (cols : List String) (r : Record) (k : String)
    (hk : k ∈ cols) :
    (toRow cols r).get k = some ((r.get k).getD Value.nan) := by
  induction cols with
  | nil => simp at hk
  | cons c cs ih =>
      by_cases h : c = k
      · subst h
        simp [toRow, Record.get]
      · rcases List.mem_cons.mp hk with h2 | h2
        · exact absurd h2.symm h
        · simpa [toRow, Record.get, h] using ih h2

theorem addVelocities_get (rng : ℕ → ℚ) (j : ℕ) (rows : List Record) (i : ℕ)
    (hi : i < (addVelocities rng j rows).length) (hi2 : i < rows.length) :
    (addVelocities rng j rows).get ⟨i, hi⟩ =
      addVelocity (rng (j + i)) (rows.get ⟨i, hi2⟩) := by
  induction rows generalizing i j with
  | nil => simp at hi2
  | cons hd tl ih =>
      cases i with
      | zero => simp [addVelocities]
      | succ m =>
          have hcons : addVelocities rng j (hd :: tl) =
              addVelocity (rng j) hd :: addVelocities rng (j + 1) tl := rfl
          have h1 : m < (addVelocities rng (j + 1) tl).length := by
            have := hi
            rw [hcons] at this
            simpa using Nat.succ_lt_succ_iff.mp (by simpa using this)
          have h2 : m < tl.length := Nat.succ_lt_succ_iff.mp (by simpa using hi2)
          have hjm : j + 1 + m = j + (m + 1) := by omega
          calc (addVelocities rng j (hd :: tl)).get ⟨m + 1, hi⟩
              = (addVelocities rng (j + 1) tl).get ⟨m, h1⟩ := rfl
            _ = addVelocity (rng (j + 1 + m)) (tl.get ⟨m, h2⟩) := ih (j + 1) m h1 h2
            _ = addVelocity (rng (j + (m + 1))) (tl.get ⟨m, h2⟩) := by rw [hjm]
            _ = addVelocity (rng (j + (m + 1))) ((hd :: tl).get ⟨m + 1, hi2⟩) := rfl

theorem out_get_eq (rng : ℕ → ℚ) (data : ProcessedData) (i : ℕ)
    (hi : i < data.length)
    (hi2 : i < ((addVelocities rng 0
      (data.map (toRow (columnsOf data)))).map addPriority).length) :
    ((addVelocities rng 0 (data.map (toRow (columnsOf data)))).map
        addPriority).get ⟨i, hi2⟩ =
      addPriority (addVelocity (rng i)
        (toRow (columnsOf data) (data.get ⟨i, hi⟩))) := by
  have hlen1 : i < (addVelocities rng 0 (data.map (toRow (columnsOf data)))).length := by
    simpa using hi
  have hlen2 : i < (data.map (toRow (columnsOf data))).length := by simpa using hi
  rw [List.get_map, addVelocities_get rng 0 _ i hlen1 hlen2, List.get_map]
  norm_num

/-- C10: the Scoring stage does not preserve field absence.  On a non-empty
batch it succeeds, returns one record per input record, every output record
carries `inventory_velocity` and `priority_score`, and every output record
carries every field name appearing anywhere in the input batch — records
whose input lacked such a field (other than the two freshly computed ones)
receive the pandas `NaN` placeholder there, because the batch round-trips
through a tabular DataFrame. -/
theorem run_dask_analysis_fills_missing_fields (rng : ℕ → ℚ)
    (data : ProcessedData) (hne : data ≠ []) :
    ∃ out, run_dask_analysis rng data = Except.ok out ∧
      out.length = data.length ∧
      (∀ i, ∀ hi : i < out.length,
        (out.get ⟨i, hi⟩).hasKey "inventory_velocity" = true ∧
        (out.get ⟨i, hi⟩).hasKey "priority_score" = true) ∧
      (∀ i, ∀ hi : i < data.length, ∀ hi2 : i < out.length, ∀ k : String,
        (∃ r ∈ data, r.hasKey k = true) →
        k ≠ "inventory_velocity" → k ≠ "priority_score" →
        (out.get ⟨i, hi2⟩).hasKey k = true ∧
        ((data.get ⟨i, hi⟩).hasKey k = false →
          (out.get ⟨i, hi2⟩).get k = some Value.nan)) := by
  refine ⟨_, run_dask_analysis_eq rng data hne, by simp, ?_, ?_⟩
  · intro i hi
    have hid : i < data.length := by simpa using hi
    rw [out_get_eq rng data i hid hi]
    unfold addPriority addVelocity
    constructor
    · exact Record.hasKey_dictSet_of _ _ _ _ (Record.hasKey_dictSet_self _ _ _)
    · exact Record.hasKey_dictSet_self _ _ _
  · intro i hi hi2 k hex hkvel hkps
    rw [out_get_eq rng data i hi hi2]
    have hkc : k ∈ columnsOf data := mem_columnsOf data k hex
    have hget : (toRow (columnsOf data) (data.get ⟨i, hi⟩)).get k =
        some (((data.get ⟨i, hi⟩).get k).getD Value.nan) :=
      toRow_get_mem _ _ k hkc
    unfold addPriority addVelocity
    constructor
    · apply Record.hasKey_dictSet_of
      apply Record.hasKey_dictSet_of
      have hget2 := hget
      simp only [List.get_eq_getElem] at hget2
      simp [Record.hasKey, hget2]
    · intro hmiss
      have hnone : (data.get ⟨i, hi⟩).get k = Option.none :=
        Record.get_eq_none_of_not_hasKey _ _ hmiss
      rw [Record.get_dictSet_ne _ _ _ _ hkps, Record.get_dictSet_ne _ _ _ _ hkvel,
        hget, hnone]
      rfl

/-- Witness for C10: on the batch `[{"id": 1}, {"in_stock": True}]` the
Scoring stage succeeds with two output records. -/
theorem run_dask_analysis_fills_missing_fields_witness :
    ∃ out, run_dask_analysis (fun _ => 0)
        [[("id", Value.int 1)], [("in_stock", Value.bool true)]] =
          Except.ok out ∧ out.length = 2 := by
  obtain ⟨out, hok, hlen, -, -⟩ := run_dask_analysis_fills_missing_fields
    (fun _ => 0) [[("id", Value.int 1)], [("in_stock", Value.bool true)]] (by simp)
  exact ⟨out, hok, by simpa using hlen⟩

end DuRecall
